import Mathlib

/-!
Verification development for the scarlet color library (`src/color.rs`).

The floating-point (`f64`) arithmetic of the source is modelled by exact
rational arithmetic where the source computation is rational (matrix
transforms, chromatic adaptation, mixing, clamping thresholds), and by real
arithmetic where the source uses `powf` (the sRGB gamma transfer functions).
Machine integers (`u8`, `u16`) are modelled as `Nat` with an explicit
`% 256` at the points where the source narrows with `as u8`.
-/

namespace Scarlet

/-- Modelled from the spec: the illuminant registry is external to the core
(`src/` holds only its callers); it is a fixed enumeration of named standard
illuminants, here the four daylight illuminants the spec names. -/
inductive Illuminant where
  | D50
  | D55
  | D65
  | D75
deriving DecidableEq

/-- A 3-component rational vector, standing for the `[f64; 3]` triples of the source. -/
structure Vec3 where
  x : ℚ
  y : ℚ
  z : ℚ
deriving DecidableEq

/-- Modelled from the spec: `white_point(illuminant) -> (f64, f64, f64)`, normalized so
the Y component equals 1.0 for every illuminant.  The spec gives no numeric values
(they live outside `src/`); the concrete triples used here are the standard CIE
two-degree observer white points of the four daylight illuminants. -/
def Illuminant.white_point : Illuminant → Vec3
  | .D50 => ⟨0.96422, 1, 0.82521⟩
  | .D55 => ⟨0.95682, 1, 0.92149⟩
  | .D65 => ⟨0.95047, 1, 1.08883⟩
  | .D75 => ⟨0.94972, 1, 1.22638⟩

/-- A point in the CIE 1931 XYZ color space together with its illuminant tag
(struct `XYZColor` of the source). -/
structure XYZColor where
  x : ℚ
  y : ℚ
  z : ℚ
  illuminant : Illuminant
deriving DecidableEq

/-- Source `XYZColor::bradford_transform`: transform an XYZ coordinate to the Bradford RGB space. -/
def XYZColor.bradford_transform (xyz : Vec3) : Vec3 :=
  { x := 0.8951 * xyz.x + 0.2664 * xyz.y - 0.1614 * xyz.z
  , y := -0.7502 * xyz.x + 1.7135 * xyz.y + 0.0367 * xyz.z
  , z := 0.0389 * xyz.x - 0.0685 * xyz.y + 1.0296 * xyz.z }

/-- The matrix path of `XYZColor::color_adapt` (its `else` branch): von Kries
scaling in Bradford space between the white points of two illuminants, followed
by the source's hard-coded approximate inverse matrix. -/
def bradford_adapt (v : Vec3) (src tgt : Illuminant) : Vec3 :=
  let rgb := XYZColor.bradford_transform v
  let rgb_w := XYZColor.bradford_transform src.white_point
  let rgb_wr := XYZColor.bradford_transform tgt.white_point
  let r_c := rgb.x * rgb_wr.x / rgb_w.x
  let g_c := rgb.y * rgb_wr.y / rgb_w.y
  let b_c := rgb.z * (rgb_wr.z / rgb_w.z)
  { x := 0.986993 * r_c - 0.147054 * g_c + 0.159963 * b_c
  , y := 0.432305 * r_c + 0.518360 * g_c + 0.049291 * b_c
  , z := -0.008529 * r_c + 0.040043 * g_c + 0.968487 * b_c }

/-- Source `XYZColor::color_adapt`: chromatic adaptation to another illuminant via the
Bradford transform, with the identity fast path for the same illuminant. -/
def XYZColor.color_adapt (c : XYZColor) (other_illuminant : Illuminant) : XYZColor :=
  if other_illuminant = c.illuminant then c
  else
    { x := (bradford_adapt ⟨c.x, c.y, c.z⟩ c.illuminant other_illuminant).x
    , y := (bradford_adapt ⟨c.x, c.y, c.z⟩ c.illuminant other_illuminant).y
    , z := (bradford_adapt ⟨c.x, c.y, c.z⟩ c.illuminant other_illuminant).z
    , illuminant := other_illuminant }

/-- Source `XYZColor::approx_equal`: all three coordinates within 0.001 of each other. -/
def XYZColor.approx_equal (c other : XYZColor) : Prop :=
  |c.x - other.x| ≤ 0.001 ∧ |c.y - other.y| ≤ 0.001 ∧ |c.z - other.z| ≤ 0.001

instance (c other : XYZColor) : Decidable (c.approx_equal other) := by
  unfold XYZColor.approx_equal
  infer_instance

/-- Source `XYZColor::approx_visually_equal`: adapt the other color to this color's
illuminant, then compare with `approx_equal`. -/
def XYZColor.approx_visually_equal (c other : XYZColor) : Prop :=
  c.approx_equal (other.color_adapt c.illuminant)

instance (c other : XYZColor) : Decidable (c.approx_visually_equal other) := by
  unfold XYZColor.approx_visually_equal
  infer_instance

/-- Source `impl Color for XYZColor`: `to_xyz` is the identity and ignores the requested
illuminant (no implicit adaptation). -/
def XYZColor.to_xyz (c : XYZColor) (_illuminant : Illuminant) : XYZColor := c

/-- Source `impl Mix for XYZColor`: adapt the other color to this color's illuminant,
then take the midpoint coordinate-wise (the `Coord` midpoint of the source),
tagging the result with this color's illuminant. -/
def XYZColor.mix (c other : XYZColor) : XYZColor :=
  let other_c := other.color_adapt c.illuminant
  { x := (c.x + other_c.x) / 2
  , y := (c.y + other_c.y) / 2
  , z := (c.z + other_c.z) / 2
  , illuminant := c.illuminant }

/-- Struct `RGBColor` of the source: three `u8` channels, modelled as `Nat`
with the invariant `valid` below. -/
structure RGBColor where
  r : ℕ
  g : ℕ
  b : ℕ
deriving DecidableEq

/-- The channels fit in `u8` (automatic in Rust from the channel type). -/
def RGBColor.valid (c : RGBColor) : Prop :=
  c.r < 256 ∧ c.g < 256 ∧ c.b < 256

instance (c : RGBColor) : Decidable c.valid := by
  unfold RGBColor.valid
  infer_instance

/-- Source `impl Mix for RGBColor`: widen each channel pair to `u16`, average with
integer division, narrow back with `as u8` (the `% 256`). -/
def RGBColor.mix (c other : RGBColor) : RGBColor :=
  { r := (c.r + other.r) / 2 % 256
  , g := (c.g + other.g) / 2 % 256
  , b := (c.b + other.b) / 2 % 256 }

/-- One uppercase hexadecimal digit, as produced by Rust's `{:02X}` formatting. -/
def hexDigitUpper (n : ℕ) : Char :=
  if n < 10 then Char.ofNat (48 + n) else Char.ofNat (55 + n)

/-- The two-digit uppercase rendering `{:02X}` of a `u8` value. -/
def fmtHexByte (n : ℕ) : List Char :=
  [hexDigitUpper (n / 16), hexDigitUpper (n % 16)]

/-- Source `impl ToString for RGBColor`: `format!("#{:02X}{:02X}{:02X}", r, g, b)`. -/
def RGBColor.to_string (c : RGBColor) : String :=
  String.mk ('#' :: (fmtHexByte c.r ++ fmtHexByte c.g ++ fmtHexByte c.b))

/-- Follows the spec's words (not the source): a lowercase-hex string form
`#rrggbb`, each channel as two lowercase hexadecimal digits
(`Nat.toDigits 16` produces lowercase digits). -/
def specLowerHexPair (n : ℕ) : List Char :=
  let ds := Nat.toDigits 16 n
  List.replicate (2 - ds.length) '0' ++ ds

/-- Follows the spec's words (not the source): the full lowercase `#rrggbb` form. -/
def specLowerHexString (c : RGBColor) : String :=
  String.mk ('#' :: (specLowerHexPair c.r ++ specLowerHexPair c.g ++ specLowerHexPair c.b))

/-- The uppercase variant of the spec's hex form, used to state the amended claim. -/
def specUpperHexPair (n : ℕ) : List Char :=
  (specLowerHexPair n).map Char.toUpper

/-- The uppercase `#RRGGBB` string form, used to state the amended claim. -/
def specUpperHexString (c : RGBColor) : String :=
  String.mk ('#' :: (specUpperHexPair c.r ++ specUpperHexPair c.g ++ specUpperHexPair c.b))

/-- Enum `RGBParseError` of the source (constructors `InvalidHexSyntax` and
`InvalidFuncSyntax` of the source are here named `InvalidHexFormat` and
`InvalidFuncFormat`). -/
inductive RGBParseError where
  | OutOfRange
  | InvalidHexFormat
  | InvalidFuncFormat
  | InvalidX11Name
deriving DecidableEq

/-- The character set of the source's hex validation string `"0123456789ABCDEFabcdef"`. -/
def hexChars : List Char :=
  ['0', '1', '2', '3', '4', '5', '6', '7', '8', '9',
   'A', 'B', 'C', 'D', 'E', 'F', 'a', 'b', 'c', 'd', 'e', 'f']

/-- The numeric value of one hexadecimal digit character, as interpreted by
`u8::from_str_radix(_, 16)`. -/
def hexDigitVal (c : Char) : Option ℕ :=
  if c = '0' then some 0 else if c = '1' then some 1
  else if c = '2' then some 2 else if c = '3' then some 3
  else if c = '4' then some 4 else if c = '5' then some 5
  else if c = '6' then some 6 else if c = '7' then some 7
  else if c = '8' then some 8 else if c = '9' then some 9
  else if c = 'A' ∨ c = 'a' then some 10
  else if c = 'B' ∨ c = 'b' then some 11
  else if c = 'C' ∨ c = 'c' then some 12
  else if c = 'D' ∨ c = 'd' then some 13
  else if c = 'E' ∨ c = 'e' then some 14
  else if c = 'F' ∨ c = 'f' then some 15
  else none

/-- Accumulating loop of `u8::from_str_radix(_, 16)`: fails on an invalid digit
or when the accumulated value overflows `u8`. -/
def parseHexU8Loop : List Char → ℕ → Option ℕ
  | [], acc => some acc
  | c :: cs, acc =>
    match hexDigitVal c with
    | none => none
    | some d => if acc * 16 + d < 256 then parseHexU8Loop cs (acc * 16 + d) else none

/-- Source `u8::from_str_radix(s, 16)`: errors on the empty string, an invalid digit,
or `u8` overflow. -/
def from_str_radix_u8 (s : List Char) : Option ℕ :=
  if s = [] then none else parseHexU8Loop s 0

/-- The body of `RGBColor::from_hex_code` after the leading `#` has been
stripped: the length check, the hex-character validation, and the two parsing
branches (`#rrggbb` and the `#rgb` shorthand, whose single digits are doubled).
A `none` models a panic of a failing `unwrap`. -/
def hex_branches (chars : List Char) : Option (Except RGBParseError RGBColor) :=
  if chars.length ≠ 3 ∧ chars.length ≠ 6 then
    some (.error .InvalidHexFormat)
  else if ¬ chars.all (fun ch => ch ∈ hexChars) then
    some (.error .InvalidHexFormat)
  else if chars.length = 6 then
    match from_str_radix_u8 (chars.take 2),
          from_str_radix_u8 ((chars.drop 2).take 2),
          from_str_radix_u8 ((chars.drop 4).take 2) with
    | some r, some g, some b => some (.ok ⟨r, g, b⟩)
    | _, _, _ => none
  else
    match from_str_radix_u8 (chars.take 1 ++ chars.take 1),
          from_str_radix_u8 (((chars.drop 1).take 1) ++ ((chars.drop 1).take 1)),
          from_str_radix_u8 (((chars.drop 2).take 1) ++ ((chars.drop 2).take 1)) with
    | some r, some g, some b => some (.ok ⟨r, g, b⟩)
    | _, _, _ => none

/-- Source `RGBColor::from_hex_code`.  The outer `Option` models panic freedom: `none`
is a panic (the unchecked `chars[0]` on the empty string, or a failing
`unwrap`), `some` is the function's normal `Result` return. -/
def from_hex_code (hex : String) : Option (Except RGBParseError RGBColor) :=
  match hex.data with
  | [] => none
  | c :: rest => hex_branches (if c = '#' then rest else c :: rest)

/-- The `gamma_correct` closure of `RGBColor::from_xyz`: the forward sRGB gamma
encoding, modelled over the reals because of `powf`. -/
noncomputable def gamma_correct (x : ℝ) : ℝ :=
  if x ≤ 0.0031308 then 12.92 * x else 1.055 * x ^ ((1:ℝ) / 2.4) - 0.055

/-- The `uncorrect_gamma` closure of `RGBColor::to_xyz`: the sRGB linearization. -/
noncomputable def uncorrect_gamma (x : ℝ) : ℝ :=
  if x ≤ 0.04045 then x / 12.92 else ((x + 0.055) / 1.055) ^ (2.4 : ℝ)

/-- The `clamp` closure of `RGBColor::from_xyz`: clip an encoded channel to [0, 1]. -/
noncomputable def clamp (x : ℝ) : ℝ :=
  if 1 ≤ x then 1 else if x ≤ 0 then 0 else x

/-- Rust `f64::round`: round to the nearest integer, halfway cases away from zero. -/
noncomputable def f64_round (x : ℝ) : ℤ :=
  if 0 ≤ x then ⌊x + 1/2⌋ else -⌊-x + 1/2⌋

/-- Rust's float-to-`u8` `as` cast on an already rounded value: saturating. -/
def u8_cast (n : ℤ) : ℕ := (min (max n 0) 255).toNat

/-- One output channel of `RGBColor::from_xyz`: gamma-encode the linear value,
clamp to [0, 1], scale to [0, 255], round, and narrow to `u8`. -/
noncomputable def encode_channel (x : ℝ) : ℕ :=
  u8_cast (f64_round (clamp (gamma_correct x) * 255))

/-- Source `impl Color for RGBColor::from_xyz`: adapt to D65 (the sRGB reference),
apply the fixed XYZ-to-linear-RGB matrix, then encode each channel. -/
noncomputable def RGBColor.from_xyz (xyz : XYZColor) : RGBColor :=
  let c := xyz.color_adapt Illuminant.D65
  { r := encode_channel (3.2406 * (c.x : ℝ) - 1.5372 * (c.y : ℝ) - 0.4986 * (c.z : ℝ))
  , g := encode_channel (-0.9689 * (c.x : ℝ) + 1.8758 * (c.y : ℝ) + 0.0415 * (c.z : ℝ))
  , b := encode_channel (0.0557 * (c.x : ℝ) - 0.2040 * (c.y : ℝ) + 1.0570 * (c.z : ℝ)) }

/-- The generic `Color::convert` at source `XYZColor` and target `RGBColor`:
`RGBColor::from_xyz(self.to_xyz(Illuminant::D50))`. -/
noncomputable def XYZColor.convert_to_rgb (c : XYZColor) : RGBColor :=
  RGBColor.from_xyz (c.to_xyz Illuminant.D50)

/-! Helper lemmas. -/

lemma color_adapt_mk_same (x y z : ℚ) (i : Illuminant) :
    (⟨x, y, z, i⟩ : XYZColor).color_adapt i = ⟨x, y, z, i⟩ := by
  rw [XYZColor.color_adapt, if_pos rfl]

lemma color_adapt_mk_ne (x y z : ℚ) (i j : Illuminant) (h : ¬ j = i) :
    (⟨x, y, z, i⟩ : XYZColor).color_adapt j =
      ⟨(bradford_adapt ⟨x, y, z⟩ i j).x, (bradford_adapt ⟨x, y, z⟩ i j).y,
       (bradford_adapt ⟨x, y, z⟩ i j).z, j⟩ := by
  rw [XYZColor.color_adapt, if_neg h]

lemma bw_D50 : XYZColor.bradford_transform (Illuminant.white_point .D50) =
    ⟨249071107/250000000, 1020427363/1000000000, 409322187/500000000⟩ := by
  norm_num [XYZColor.bradford_transform, Illuminant.white_point]

lemma bw_D55 : XYZColor.bradford_transform (Illuminant.white_point .D55) =
    ⟨121765137/125000000, 1029512319/1000000000, 458743201/500000000⟩ := by
  norm_num [XYZColor.bradford_transform, Illuminant.white_point]

lemma bw_D65 : XYZColor.bradford_transform (Illuminant.white_point .D65) =
    ⟨188285707/200000000, 1040417467/1000000000, 1089532651/1000000000⟩ := by
  norm_num [XYZColor.bradford_transform, Illuminant.white_point]

lemma bw_D75 : XYZColor.bradford_transform (Illuminant.white_point .D75) =
    ⟨5740979/6250000, 523014101/500000000, 307781239/250000000⟩ := by
  norm_num [XYZColor.bradford_transform, Illuminant.white_point]

lemma illEq_50_50 : (Illuminant.D50 = Illuminant.D50) = True := eq_true rfl

lemma illEq_55_55 : (Illuminant.D55 = Illuminant.D55) = True := eq_true rfl

lemma illEq_65_65 : (Illuminant.D65 = Illuminant.D65) = True := eq_true rfl

lemma illEq_75_75 : (Illuminant.D75 = Illuminant.D75) = True := eq_true rfl

lemma illEq_50_55 : (Illuminant.D50 = Illuminant.D55) = False := eq_false (by decide)

lemma illEq_50_65 : (Illuminant.D50 = Illuminant.D65) = False := eq_false (by decide)

lemma illEq_50_75 : (Illuminant.D50 = Illuminant.D75) = False := eq_false (by decide)

lemma illEq_55_50 : (Illuminant.D55 = Illuminant.D50) = False := eq_false (by decide)

lemma illEq_55_65 : (Illuminant.D55 = Illuminant.D65) = False := eq_false (by decide)

lemma illEq_55_75 : (Illuminant.D55 = Illuminant.D75) = False := eq_false (by decide)

lemma illEq_65_50 : (Illuminant.D65 = Illuminant.D50) = False := eq_false (by decide)

lemma illEq_65_55 : (Illuminant.D65 = Illuminant.D55) = False := eq_false (by decide)

lemma illEq_65_75 : (Illuminant.D65 = Illuminant.D75) = False := eq_false (by decide)

lemma illEq_75_50 : (Illuminant.D75 = Illuminant.D50) = False := eq_false (by decide)

lemma illEq_75_55 : (Illuminant.D75 = Illuminant.D55) = False := eq_false (by decide)

lemma illEq_75_65 : (Illuminant.D75 = Illuminant.D65) = False := eq_false (by decide)

/-! Claim theorems. -/

/-- C3: for every XYZ color `c`, adapting to its own illuminant returns `c`
unchanged, exactly — the identity fast path of `color_adapt`. -/
theorem adaptation_identity (c : XYZColor) : c.color_adapt c.illuminant = c := by
  rw [XYZColor.color_adapt, if_pos rfl]

/-- C6: `XYZColor` mixing adapts the second color to the first color's
illuminant, averages the coordinates, and tags the result with the first
color's illuminant; in particular the repository's concrete midpoint
`(0.5, 0.25, 0.75)` mixed with `(0.75, 0.5, 0.25)` under one illuminant is
exactly `(0.625, 0.375, 0.5)` under that illuminant. -/
theorem xyz_mix_formula_and_midpoint :
    (∀ a b : XYZColor, a.mix b =
      ⟨(a.x + (b.color_adapt a.illuminant).x) / 2,
       (a.y + (b.color_adapt a.illuminant).y) / 2,
       (a.z + (b.color_adapt a.illuminant).z) / 2, a.illuminant⟩) ∧
    ∀ i : Illuminant,
      XYZColor.mix ⟨0.5, 0.25, 0.75, i⟩ ⟨0.75, 0.5, 0.25, i⟩ = ⟨0.625, 0.375, 0.5, i⟩ := by
  refine ⟨fun a b => rfl, fun i => ?_⟩
  simp only [XYZColor.mix]
  rw [color_adapt_mk_same 0.75 0.5 0.25 i]
  simp only [XYZColor.mk.injEq]
  norm_num

/-- C7: `RGBColor` mixing averages the channels in widened arithmetic, so for
valid (8-bit) inputs the sum never overflows, the narrowing back to `u8` is
exact, and the result is valid; the two concrete mixes of the repository
render as `#7F0080` and `#BF030A`. -/
theorem rgb_mix_widened_average :
    (∀ p q : RGBColor, p.valid → q.valid →
      p.r + q.r < 65536 ∧ p.g + q.g < 65536 ∧ p.b + q.b < 65536 ∧
      p.mix q = ⟨(p.r + q.r) / 2, (p.g + q.g) / 2, (p.b + q.b) / 2⟩ ∧
      (p.mix q).valid) ∧
    (RGBColor.mix ⟨0, 0, 255⟩ ⟨255, 0, 1⟩).to_string = "#7F0080" ∧
    (RGBColor.mix ⟨255, 0, 1⟩ ⟨127, 7, 19⟩).to_string = "#BF030A" := by
  refine ⟨fun p q hp hq => ?_, by decide, by decide⟩
  obtain ⟨h1, h2, h3⟩ := hp
  obtain ⟨h4, h5, h6⟩ := hq
  have hmix : p.mix q = ⟨(p.r + q.r) / 2, (p.g + q.g) / 2, (p.b + q.b) / 2⟩ := by
    unfold RGBColor.mix
    simp only [RGBColor.mk.injEq]
    omega
  refine ⟨by omega, by omega, by omega, hmix, ?_⟩
  rw [hmix]
  simp only [RGBColor.valid]
  omega

/-- Witness for C7 at a concrete pair of valid colors. -/
theorem rgb_mix_widened_average_witness :
    (10 : ℕ) + 40 < 65536 ∧ (20 : ℕ) + 50 < 65536 ∧ (30 : ℕ) + 60 < 65536 ∧
    RGBColor.mix ⟨10, 20, 30⟩ ⟨40, 50, 60⟩ = ⟨25, 35, 45⟩ ∧
    (RGBColor.mix ⟨10, 20, 30⟩ ⟨40, 50, 60⟩).valid :=
  rgb_mix_widened_average.1 ⟨10, 20, 30⟩ ⟨40, 50, 60⟩ (by decide) (by decide)

set_option maxRecDepth 8000 in
lemma bytes_upper : ∀ n < 256, fmtHexByte n = specUpperHexPair n := by decide

lemma hex_digit_exists : ∀ c ∈ hexChars, ∃ d, hexDigitVal c = some d ∧ d < 16 := by decide

lemma from_str_radix_pair (c1 c2 : Char) (h1 : c1 ∈ hexChars) (h2 : c2 ∈ hexChars) :
    ∃ v, from_str_radix_u8 [c1, c2] = some v := by
  obtain ⟨d1, hd1, hd1lt⟩ := hex_digit_exists c1 h1
  obtain ⟨d2, hd2, hd2lt⟩ := hex_digit_exists c2 h2
  refine ⟨(0 * 16 + d1) * 16 + d2, ?_⟩
  rw [from_str_radix_u8, if_neg (by simp)]
  simp only [parseHexU8Loop, hd1, hd2]
  rw [if_pos (show 0 * 16 + d1 < 256 by omega)]
  rw [if_pos (show (0 * 16 + d1) * 16 + d2 < 256 by omega)]

lemma from_str_radix_two (s : List Char) (hlen : s.length = 2)
    (hmem : ∀ c ∈ s, c ∈ hexChars) : ∃ v, from_str_radix_u8 s = some v := by
  rcases s with _ | ⟨c1, _ | ⟨c2, _ | ⟨c3, t⟩⟩⟩
  · simp at hlen
  · simp at hlen
  · exact from_str_radix_pair c1 c2 (hmem _ (by simp)) (hmem _ (by simp))
  · simp at hlen

lemma hex_branches_total (chars : List Char) : ∃ r, hex_branches chars = some r := by
  unfold hex_branches
  split_ifs with h1 h2 h3
  any_goals exact ⟨_, rfl⟩
  · have hmem : ∀ c ∈ chars, c ∈ hexChars := fun c hc =>
      of_decide_eq_true (List.all_eq_true.mp h2 c hc)
    obtain ⟨v1, hv1⟩ := from_str_radix_two (chars.take 2)
      (by rw [List.length_take]; omega)
      (fun c hc => hmem c (List.take_subset _ _ hc))
    obtain ⟨v2, hv2⟩ := from_str_radix_two ((chars.drop 2).take 2)
      (by rw [List.length_take, List.length_drop]; omega)
      (fun c hc => hmem c (List.drop_subset _ _ (List.take_subset _ _ hc)))
    obtain ⟨v3, hv3⟩ := from_str_radix_two ((chars.drop 4).take 2)
      (by rw [List.length_take, List.length_drop]; omega)
      (fun c hc => hmem c (List.drop_subset _ _ (List.take_subset _ _ hc)))
    rw [hv1, hv2, hv3]
    exact ⟨_, rfl⟩
  · have hmem : ∀ c ∈ chars, c ∈ hexChars := fun c hc =>
      of_decide_eq_true (List.all_eq_true.mp h2 c hc)
    have hlen3 : chars.length = 3 := by
      rcases not_and_or.mp h1 with h | h
      · exact not_not.mp h
      · exact absurd (not_not.mp h) h3
    rcases chars with _ | ⟨c1, _ | ⟨c2, _ | ⟨c3, _ | ⟨c4, t⟩⟩⟩⟩ <;> simp at hlen3
    obtain ⟨v1, hv1⟩ := from_str_radix_pair c1 c1 (hmem _ (by simp)) (hmem _ (by simp))
    obtain ⟨v2, hv2⟩ := from_str_radix_pair c2 c2 (hmem _ (by simp)) (hmem _ (by simp))
    obtain ⟨v3, hv3⟩ := from_str_radix_pair c3 c3 (hmem _ (by simp)) (hmem _ (by simp))
    have e1 : List.take 1 [c1, c2, c3] ++ List.take 1 [c1, c2, c3] = [c1, c1] := rfl
    have e2 : (List.drop 1 [c1, c2, c3]).take 1 ++ (List.drop 1 [c1, c2, c3]).take 1 = [c2, c2] := rfl
    have e3 : (List.drop 2 [c1, c2, c3]).take 1 ++ (List.drop 2 [c1, c2, c3]).take 1 = [c3, c3] := rfl
    rw [e1, e2, e3, hv1, hv2, hv3]
    exact ⟨_, rfl⟩

/-- C10: the function `from_hex_code` panics on the empty string (it indexes the first
character before any length check), and on every non-empty string it returns
normally, with `Ok` or a parse error — in particular the two `from_str_radix`
unwraps after the hex-character validation never fail. -/
theorem from_hex_code_panic_behavior :
    from_hex_code "" = none ∧ ∀ s : String, s ≠ "" → ∃ r, from_hex_code s = some r := by
  refine ⟨rfl, fun s hs => ?_⟩
  obtain ⟨l⟩ := s
  cases l with
  | nil => exact absurd rfl hs
  | cons c rest => exact hex_branches_total (if c = '#' then rest else c :: rest)

/-- Witness for C10 at a concrete non-empty string. -/
theorem from_hex_code_panic_behavior_witness :
    ("zz1" : String) ≠ "" ∧ ∃ r, from_hex_code "zz1" = some r :=
  ⟨by decide, from_hex_code_panic_behavior.2 "zz1" (by decide)⟩

/-- C5 counterexample: the string form of (244, 182, 33) is not the lowercase
hex form the claim asserts (the source formats with uppercase `{:02X}`). -/
theorem to_string_lowercase_counterexample :
    RGBColor.to_string ⟨244, 182, 33⟩ ≠ specLowerHexString ⟨244, 182, 33⟩ := by decide

/-- C5 (amended): for every valid `RGBColor`, `to_string` is `#` followed by
the three channels as two UPPERCASE hexadecimal digits each. -/
theorem to_string_uppercase_amended :
    ∀ c : RGBColor, c.valid → c.to_string = specUpperHexString c := by
  intro c hc
  obtain ⟨r, g, b⟩ := c
  obtain ⟨hr, hg, hb⟩ := hc
  simp only [RGBColor.to_string, specUpperHexString]
  rw [bytes_upper r hr, bytes_upper g hg, bytes_upper b hb]

/-- Witness for C5 at a concrete valid color. -/
theorem to_string_uppercase_witness :
    RGBColor.valid ⟨171, 205, 239⟩ ∧
      RGBColor.to_string ⟨171, 205, 239⟩ = specUpperHexString ⟨171, 205, 239⟩ :=
  ⟨by decide, to_string_uppercase_amended _ (by decide)⟩

lemma rpow_five_twelfths_pow (x : ℝ) (hx : 0 ≤ x) :
    (x ^ ((1:ℝ) / 2.4)) ^ (12:ℕ) = x ^ (5:ℕ) := by
  have h2 : (x ^ ((1:ℝ) / 2.4)) ^ (12:ℕ) = x ^ ((1:ℝ) / 2.4 * 12) := by
    rw [← Real.rpow_natCast (x ^ ((1:ℝ) / 2.4)) 12, ← Real.rpow_mul hx]
    norm_num
  rw [h2, show (1:ℝ) / 2.4 * 12 = ((5:ℕ):ℝ) by norm_num, Real.rpow_natCast]

lemma rpow_bounds (x L U : ℝ) (hx : 0 ≤ x) (_hL : 0 ≤ L) (hU : 0 ≤ U)
    (h1 : L ^ (12:ℕ) ≤ x ^ (5:ℕ)) (h2 : x ^ (5:ℕ) < U ^ (12:ℕ)) :
    L ≤ x ^ ((1:ℝ) / 2.4) ∧ x ^ ((1:ℝ) / 2.4) < U := by
  have hy : 0 ≤ x ^ ((1:ℝ) / 2.4) := Real.rpow_nonneg hx _
  have hkey := rpow_five_twelfths_pow x hx
  constructor
  · by_contra hc
    push_neg at hc
    have h3 := pow_lt_pow_left₀ hc hy (show (12:ℕ) ≠ 0 by norm_num)
    rw [hkey] at h3
    linarith
  · by_contra hc
    push_neg at hc
    have h3 := pow_le_pow_left₀ hU hc 12
    rw [hkey] at h3
    linarith

lemma encode_channel_eq (x L U : ℝ) (n : ℕ)
    (hgt : 0.0031308 < x) (hL0 : 0 ≤ L) (hU0 : 0 ≤ U)
    (hp1 : L ^ (12:ℕ) ≤ x ^ (5:ℕ)) (hp2 : x ^ (5:ℕ) < U ^ (12:ℕ))
    (hn : n ≤ 255)
    (he0 : 0 < 1.055 * L - 0.055) (he1 : 1.055 * U - 0.055 ≤ 1)
    (hlo : (n : ℝ) ≤ 255 * (1.055 * L - 0.055) + 1/2)
    (hhi : 255 * (1.055 * U - 0.055) ≤ (n : ℝ) + 1/2) :
    encode_channel x = n := by
  obtain ⟨hyL, hyU⟩ := rpow_bounds x L U (by linarith) hL0 hU0 hp1 hp2
  have hg : gamma_correct x = 1.055 * x ^ ((1:ℝ) / 2.4) - 0.055 := by
    rw [gamma_correct, if_neg (by linarith)]
  have hcl : clamp (gamma_correct x) = 1.055 * x ^ ((1:ℝ) / 2.4) - 0.055 := by
    rw [hg, clamp, if_neg (by linarith), if_neg (by linarith)]
  have hround : f64_round (clamp (gamma_correct x) * 255) = (n : ℤ) := by
    rw [hcl, f64_round, if_pos (by nlinarith)]
    rw [Int.floor_eq_iff]
    push_cast
    constructor
    · linarith
    · linarith
  rw [encode_channel, hround, u8_cast]
  rw [max_eq_left (Int.natCast_nonneg n), min_eq_left (by exact_mod_cast hn)]
  exact Int.toNat_natCast n

/-- C4: converting XYZ (0.41874, 0.21967, 0.05649) under D65 through the
generic convert operation (identity `to_xyz` with the D50 reference, then
`RGBColor::from_xyz`) yields exactly RGB (254, 23, 55). -/
theorem fixed_conversion_vector :
    XYZColor.convert_to_rgb ⟨0.41874, 0.21967, 0.05649, .D65⟩ = ⟨254, 23, 55⟩ := by
  rw [XYZColor.convert_to_rgb, XYZColor.to_xyz, RGBColor.from_xyz]
  simp only [color_adapt_mk_same]
  simp only [RGBColor.mk.injEq]
  refine ⟨?_, ?_, ?_⟩
  · rw [show 3.2406 * ((0.41874 : ℚ) : ℝ) - 1.5372 * ((0.21967 : ℚ) : ℝ)
        - 0.4986 * ((0.05649 : ℚ) : ℝ) = 0.991126206 by push_cast; norm_num]
    exact encode_channel_eq 0.991126206 0.995 0.998 254 (by norm_num) (by norm_num)
      (by norm_num) (by norm_num) (by norm_num) (by norm_num) (by norm_num)
      (by norm_num) (by norm_num) (by norm_num)
  · rw [show -0.9689 * ((0.41874 : ℚ) : ℝ) + 1.8758 * ((0.21967 : ℚ) : ℝ)
        + 0.0415 * ((0.05649 : ℚ) : ℝ) = 0.008684135 by push_cast; norm_num]
    exact encode_channel_eq 0.008684135 0.138 0.1394 23 (by norm_num) (by norm_num)
      (by norm_num) (by norm_num) (by norm_num) (by norm_num) (by norm_num)
      (by norm_num) (by norm_num) (by norm_num)
  · rw [show 0.0557 * ((0.41874 : ℚ) : ℝ) - 0.2040 * ((0.21967 : ℚ) : ℝ)
        + 1.0570 * ((0.05649 : ℚ) : ℝ) = 0.038221068 by push_cast; norm_num]
    exact encode_channel_eq 0.038221068 0.2552 0.258 55 (by norm_num) (by norm_num)
      (by norm_num) (by norm_num) (by norm_num) (by norm_num) (by norm_num)
      (by norm_num) (by norm_num) (by norm_num)

lemma clamp_mem (x : ℝ) : 0 ≤ clamp x ∧ clamp x ≤ 1 := by
  unfold clamp
  split_ifs <;> constructor <;> linarith

lemma round_clamp_bounds (x : ℝ) :
    0 ≤ f64_round (clamp x * 255) ∧ f64_round (clamp x * 255) ≤ 255 := by
  obtain ⟨h0, h1⟩ := clamp_mem x
  have ht0 : (0:ℝ) ≤ clamp x * 255 := by linarith
  rw [f64_round, if_pos ht0]
  constructor
  · rw [Int.le_floor]
    push_cast
    linarith
  · rw [Int.floor_le_iff]
    push_cast
    linarith

lemma u8_cast_le (n : ℤ) : u8_cast n ≤ 255 := by
  unfold u8_cast
  have h : min (max n 0) 255 ≤ 255 := min_le_right _ _
  set k := min (max n 0) 255 with hk
  omega

lemma encode_channel_le (x : ℝ) : encode_channel x ≤ 255 := by
  rw [encode_channel]
  exact u8_cast_le _

/-- C9: the conversion pipeline is total: out-of-range encoded channels are
clamped into [0, 1], the rounded scaled value always lies in [0, 255] (so the
narrowing cast never wraps), every `from_xyz` result is a valid 8-bit color,
and mixing valid colors yields a valid color. -/
theorem conversion_totality_clamping :
    (∀ x : ℝ, 0 ≤ clamp x ∧ clamp x ≤ 1) ∧
    (∀ x : ℝ, 1 ≤ x → clamp x = 1) ∧
    (∀ x : ℝ, x ≤ 0 → clamp x = 0) ∧
    (∀ x : ℝ, 0 ≤ f64_round (clamp x * 255) ∧ f64_round (clamp x * 255) ≤ 255) ∧
    (∀ xyz : XYZColor, (RGBColor.from_xyz xyz).valid) ∧
    (∀ p q : RGBColor, p.valid → q.valid → (p.mix q).valid) := by
  refine ⟨clamp_mem, fun x hx => ?_, fun x hx => ?_, round_clamp_bounds, fun xyz => ?_, ?_⟩
  · rw [clamp, if_pos hx]
  · rw [clamp]
    split_ifs with h1
    · linarith
    · rfl
  · simp only [RGBColor.from_xyz, RGBColor.valid]
    refine ⟨?_, ?_, ?_⟩ <;> exact Nat.lt_succ_of_le (encode_channel_le _)
  · intro p q hp hq
    simp only [RGBColor.mix, RGBColor.valid]
    omega

/-- Witness for C9 at concrete inputs. -/
theorem conversion_totality_clamping_witness :
    clamp 2 = 1 ∧ (RGBColor.mix ⟨3, 4, 5⟩ ⟨6, 7, 8⟩).valid :=
  ⟨conversion_totality_clamping.2.1 2 (by norm_num),
   conversion_totality_clamping.2.2.2.2.2 ⟨3, 4, 5⟩ ⟨6, 7, 8⟩ (by decide) (by decide)⟩

/-- C8: the two sRGB gamma functions follow the piecewise law with thresholds
0.04045 (encoded) and 0.0031308 (linear), and a value exactly at each
threshold takes the first (small-value) branch. -/
theorem gamma_piecewise_thresholds :
    (∀ x : ℝ, x ≤ 0.04045 → uncorrect_gamma x = x / 12.92) ∧
    (∀ x : ℝ, ¬ x ≤ 0.04045 → uncorrect_gamma x = ((x + 0.055) / 1.055) ^ (2.4:ℝ)) ∧
    (∀ x : ℝ, x ≤ 0.0031308 → gamma_correct x = 12.92 * x) ∧
    (∀ x : ℝ, ¬ x ≤ 0.0031308 → gamma_correct x = 1.055 * x ^ ((1:ℝ) / 2.4) - 0.055) ∧
    uncorrect_gamma 0.04045 = 0.04045 / 12.92 ∧
    gamma_correct 0.0031308 = 12.92 * 0.0031308 := by
  refine ⟨fun x hx => ?_, fun x hx => ?_, fun x hx => ?_, fun x hx => ?_, ?_, ?_⟩
  · rw [uncorrect_gamma, if_pos hx]
  · rw [uncorrect_gamma, if_neg hx]
  · rw [gamma_correct, if_pos hx]
  · rw [gamma_correct, if_neg hx]
  · rw [uncorrect_gamma, if_pos le_rfl]
  · rw [gamma_correct, if_pos le_rfl]

/-- Witness for C8: one instance of each branch at a concrete input. -/
theorem gamma_piecewise_thresholds_witness :
    uncorrect_gamma 0.04 = 0.04 / 12.92 ∧
    gamma_correct 1 = 1.055 * (1:ℝ) ^ ((1:ℝ) / 2.4) - 0.055 :=
  ⟨gamma_piecewise_thresholds.1 0.04 (by norm_num),
   gamma_piecewise_thresholds.2.2.2.1 1 (by norm_num)⟩

/-- C1 counterexample: mix commutativity up to visual equality fails as an
unrestricted claim — at coordinates of magnitude 100000 the two mixes differ
by far more than the 0.001 tolerance, because the source's hard-coded inverse
Bradford matrix is only approximate. -/
theorem mix_commutativity_counterexample :
    ¬ ((XYZColor.mix ⟨100000, 100000, 100000, .D65⟩ ⟨0, 0, 0, .D50⟩).approx_visually_equal
        (XYZColor.mix ⟨0, 0, 0, .D50⟩ ⟨100000, 100000, 100000, .D65⟩)) := by
  intro h
  simp only [XYZColor.mix, XYZColor.approx_visually_equal, XYZColor.approx_equal,
    XYZColor.color_adapt, illEq_50_50, illEq_55_55, illEq_65_65, illEq_75_75,
    illEq_50_55, illEq_50_65, illEq_50_75, illEq_55_50, illEq_55_65, illEq_55_75,
    illEq_65_50, illEq_65_55, illEq_65_75, illEq_75_50, illEq_75_55, illEq_75_65,
    reduceIte, bradford_adapt] at h
  simp only [bw_D50, bw_D55, bw_D65, bw_D75] at h
  simp only [XYZColor.bradford_transform] at h
  obtain ⟨h1, -, -⟩ := h
  rw [abs_le] at h1
  linarith [h1.1, h1.2]

/-- C2 counterexample: chained adaptation does not match direct adaptation
within 0.01 for arbitrarily large coordinates — at magnitude 100000 the
x-channel difference alone exceeds 0.06. -/
theorem adaptation_roundtrip_counterexample :
    ¬ (|(((⟨100000, 100000, 100000, .D65⟩ : XYZColor).color_adapt .D50).color_adapt .D55).x
          - ((⟨100000, 100000, 100000, .D65⟩ : XYZColor).color_adapt .D55).x| ≤ 0.01 ∧
       |(((⟨100000, 100000, 100000, .D65⟩ : XYZColor).color_adapt .D50).color_adapt .D55).y
          - ((⟨100000, 100000, 100000, .D65⟩ : XYZColor).color_adapt .D55).y| ≤ 0.01 ∧
       |(((⟨100000, 100000, 100000, .D65⟩ : XYZColor).color_adapt .D50).color_adapt .D55).z
          - ((⟨100000, 100000, 100000, .D65⟩ : XYZColor).color_adapt .D55).z| ≤ 0.01) := by
  intro h
  simp only [XYZColor.color_adapt, illEq_50_50, illEq_55_55, illEq_65_65, illEq_75_75,
    illEq_50_55, illEq_50_65, illEq_50_75, illEq_55_50, illEq_55_65, illEq_55_75,
    illEq_65_50, illEq_65_55, illEq_65_75, illEq_75_50, illEq_75_55, illEq_75_65,
    reduceIte, bradford_adapt] at h
  simp only [bw_D50, bw_D55, bw_D65, bw_D75] at h
  simp only [XYZColor.bradford_transform] at h
  obtain ⟨h1, -, -⟩ := h
  rw [abs_le] at h1
  linarith [h1.1, h1.2]

set_option maxHeartbeats 4000000 in
/-- C1 (amended): RGB mixing is exactly commutative for all channel triples;
XYZ mixing is commutative up to visual equality (0.001 per channel after
adapting to the first color's illuminant) provided the coordinates of the
first mix operand lie within [-1, 1]. -/
theorem mix_commutativity_amended :
    (∀ p q : RGBColor, p.mix q = q.mix p) ∧
    ∀ a b : XYZColor, |a.x| ≤ 1 → |a.y| ≤ 1 → |a.z| ≤ 1 →
      (a.mix b).approx_visually_equal (b.mix a) := by
  constructor
  · intro p q
    unfold RGBColor.mix
    rw [Nat.add_comm p.r q.r, Nat.add_comm p.g q.g, Nat.add_comm p.b q.b]
  · intro a b hx hy hz
    obtain ⟨a1, a2, a3, ia⟩ := a
    obtain ⟨b1, b2, b3, ib⟩ := b
    simp only [abs_le] at hx hy hz
    cases ia <;> cases ib <;>
      · simp only [XYZColor.mix, XYZColor.approx_visually_equal, XYZColor.approx_equal,
          XYZColor.color_adapt, illEq_50_50, illEq_55_55, illEq_65_65, illEq_75_75,
          illEq_50_55, illEq_50_65, illEq_50_75, illEq_55_50, illEq_55_65, illEq_55_75,
          illEq_65_50, illEq_65_55, illEq_65_75, illEq_75_50, illEq_75_55, illEq_75_65,
          reduceIte, bradford_adapt]
        try simp only [bw_D50, bw_D55, bw_D65, bw_D75]
        try simp only [XYZColor.bradford_transform]
        try ring_nf
        refine ⟨?_, ?_, ?_⟩ <;> rw [abs_le] <;> constructor <;>
          linarith [hx.1, hx.2, hy.1, hy.2, hz.1, hz.2]

/-- Witness for C1 at concrete in-range colors under distinct illuminants. -/
theorem mix_commutativity_amended_witness :
    ((⟨1/2, 1/4, 3/4, .D65⟩ : XYZColor).mix ⟨1/4, 1/2, 1/4, .D50⟩).approx_visually_equal
      ((⟨1/4, 1/2, 1/4, .D50⟩ : XYZColor).mix ⟨1/2, 1/4, 3/4, .D65⟩) :=
  mix_commutativity_amended.2 ⟨1/2, 1/4, 3/4, .D65⟩ ⟨1/4, 1/2, 1/4, .D50⟩
    (by norm_num [abs_le]) (by norm_num [abs_le]) (by norm_num [abs_le])

set_option maxHeartbeats 4000000 in
/-- C2 (amended): for every XYZ color whose coordinates lie within [-1, 1] and
all illuminants I1, I2, adapting through I1 and then to I2 agrees with direct
adaptation to I2 within 0.01 per channel (both results carry illuminant I2, so
they are already at a common reference). -/
theorem adaptation_roundtrip_amended :
    ∀ (c : XYZColor) (i1 i2 : Illuminant), |c.x| ≤ 1 → |c.y| ≤ 1 → |c.z| ≤ 1 →
      |((c.color_adapt i1).color_adapt i2).x - (c.color_adapt i2).x| ≤ 0.01 ∧
      |((c.color_adapt i1).color_adapt i2).y - (c.color_adapt i2).y| ≤ 0.01 ∧
      |((c.color_adapt i1).color_adapt i2).z - (c.color_adapt i2).z| ≤ 0.01 := by
  intro c i1 i2 hx hy hz
  obtain ⟨c1, c2, c3, i0⟩ := c
  simp only [abs_le] at hx hy hz
  cases i0 <;> cases i1 <;> cases i2 <;>
    · simp only [XYZColor.color_adapt, illEq_50_50, illEq_55_55, illEq_65_65, illEq_75_75,
        illEq_50_55, illEq_50_65, illEq_50_75, illEq_55_50, illEq_55_65, illEq_55_75,
        illEq_65_50, illEq_65_55, illEq_65_75, illEq_75_50, illEq_75_55, illEq_75_65,
        reduceIte, bradford_adapt]
      try simp only [bw_D50, bw_D55, bw_D65, bw_D75]
      try simp only [XYZColor.bradford_transform]
      try ring_nf
      refine ⟨?_, ?_, ?_⟩ <;> rw [abs_le] <;> constructor <;>
        linarith [hx.1, hx.2, hy.1, hy.2, hz.1, hz.2]

/-- Witness for C2 at a concrete in-range color and illuminant pair. -/
theorem adaptation_roundtrip_amended_witness :
    |(((⟨1/2, 3/4, 3/5, .D65⟩ : XYZColor).color_adapt .D50).color_adapt .D55).x
        - ((⟨1/2, 3/4, 3/5, .D65⟩ : XYZColor).color_adapt .D55).x| ≤ 0.01 ∧
    |(((⟨1/2, 3/4, 3/5, .D65⟩ : XYZColor).color_adapt .D50).color_adapt .D55).y
        - ((⟨1/2, 3/4, 3/5, .D65⟩ : XYZColor).color_adapt .D55).y| ≤ 0.01 ∧
    |(((⟨1/2, 3/4, 3/5, .D65⟩ : XYZColor).color_adapt .D50).color_adapt .D55).z
        - ((⟨1/2, 3/4, 3/5, .D65⟩ : XYZColor).color_adapt .D55).z| ≤ 0.01 :=
  adaptation_roundtrip_amended ⟨1/2, 3/4, 3/5, .D65⟩ .D50 .D55
    (by norm_num [abs_le]) (by norm_num [abs_le]) (by norm_num [abs_le])

end Scarlet
